import Mathlib

/-!
Verification development for the governance vote-casting and
instruction-queue cores (files
`src/governance/program/src/processor/process_cast_vote.rs` and
`src/governance/program/src/processor/process_insert_instruction.rs`).

The two processor functions are embedded shallowly: every account load,
authority check and weight resolution performed by an out-of-scope
collaborator appears as an `Except` valued input field of a context
structure, and the processor body is translated match-by-match in the
source's exact order.  Helper functions of this repository that are not
part of the two visible files (the proposal state-machine asserts, the
tipping check, the choice-weight lookup, the saturating outstanding
counter decrement) are modelled from the specification and are marked as
such in their doc comments.

Machine integers are `Nat` with explicit `checkedAdd` bounds where the
source uses `checked_add`; a Rust `Option::unwrap` panic is embedded as
the `ProgramError.abort` error constructor, kept distinct from the
graceful `GovernanceError` results.
-/

/-- Reasons a Rust `unwrap` panic aborts the embedded operations:
either a `checked_add(..).unwrap()` on an overflowed counter/tally, or the
`deny_vote_weight.unwrap()` on a proposal with no deny accumulator. -/
inductive AbortKind where
  | arithmeticOverflow
  | denyWeightMissing
  deriving DecidableEq, Repr

/-- Governance error codes surfaced by the two processors and by the
spec-modelled asserts (spec §7 error taxonomy; `VoteAlreadyExists`,
`NotSupportedVoteType` and `TransactionDoesNotExists` appear literally in
the source). -/
inductive GovernanceError where
  | VoteAlreadyExists
  | InvalidState
  | Unauthorized
  | NotSupportedVoteType
  | InvalidVoteType
  | TransactionDoesNotExists
  | AttestationNotFound
  | AttestationScopeMismatch
  deriving DecidableEq, Repr

/-- A program result error: a graceful governance error, an `unwrap`
panic (`abort`), or an arbitrary error bubbled up from an out-of-scope
collaborator (`other`). -/
inductive ProgramError where
  | gov (e : GovernanceError)
  | abort (k : AbortKind)
  | other (code : Nat)
  deriving DecidableEq, Repr

instance {ε α : Type} [DecidableEq ε] [DecidableEq α] : DecidableEq (Except ε α) := fun a b =>
  match a, b with
  | .error x, .error y =>
      if h : x = y then .isTrue (congrArg Except.error h)
      else .isFalse (fun hh => h (Except.error.inj hh))
  | .ok x, .ok y =>
      if h : x = y then .isTrue (congrArg Except.ok h)
      else .isFalse (fun hh => h (Except.ok.inj hh))
  | .error _, .ok _ => .isFalse (fun hh => Except.noConfusion hh)
  | .ok _, .error _ => .isFalse (fun hh => Except.noConfusion hh)

/-- The `checked_add` of a `limit`-bounded unsigned integer: `some` of the sum
when it stays below `limit`, `none` on overflow (never wraps). -/
def checkedAdd (limit a b : Nat) : Option Nat :=
  if a + b < limit then some (a + b) else none

/-- Bound of the `u32` vote counters. -/
def U32LIMIT : Nat := 2 ^ 32

/-- Bound of the `u64` vote-weight tallies. -/
def U64LIMIT : Nat := 2 ^ 64

/-- Modelled from the spec: one entry of an `Approve` vote's choice set;
a choice is either selected (receives the full snapshotted weight) or not
(receives nothing).  The concrete choice struct is not among the visible
sources. -/
structure VoteChoice where
  selected : Bool
  deriving DecidableEq, Repr

/-- The vote value passed to `process_cast_vote` (source enum `Vote`):
`Approve` with a choice set, `Deny`, `Abstain`, `Veto`. -/
inductive Vote where
  | Approve (choices : List VoteChoice)
  | Deny
  | Abstain
  | Veto
  deriving DecidableEq, Repr

/-- One proposal option with its `vote_weight` accumulator (u64). -/
structure ProposalOption where
  vote_weight : Nat
  deriving DecidableEq, Repr

/-- Modelled from the spec: the proposal lifecycle states the core needs —
pre-voting editable stages, the distinguished `Voting` state, and the two
terminal tipped outcomes, plus the later lifecycle stages.  The concrete
enum is not among the visible sources. -/
inductive ProposalState where
  | Draft
  | SigningOff
  | Voting
  | Succeeded
  | Defeated
  | Executing
  | Completed
  | Cancelled
  deriving DecidableEq, Repr

/-- The proposal fields the two processors read and write: the owning
token-owner-record key, the ordered option list, the optional deny
accumulator, the lifecycle state and the voting-window start time
(spec §3 Proposal). -/
structure Proposal where
  token_owner_record : Nat
  options : List ProposalOption
  deny_vote_weight : Option Nat
  state : ProposalState
  voting_at : Int
  deriving DecidableEq, Repr

/-- TokenOwnerRecord fields used by the processors (spec §3): owner
identity and the three counters. -/
structure TokenOwnerRecord where
  governing_token_owner : Nat
  unrelinquished_votes_count : Nat
  total_votes_count : Nat
  outstanding_proposal_count : Nat
  deriving DecidableEq, Repr

/-- Realm fields used by `process_cast_vote`: the active-proposal
aggregate counter. -/
structure Realm where
  voting_proposal_count : Nat
  deriving DecidableEq, Repr

/-- Modelled from the spec: the governance configuration visible to the
core — the voting-window length used by `assert_can_cast_vote`.  The
concrete config struct is not among the visible sources. -/
structure GovernanceConfig where
  max_voting_time : Nat
  deriving DecidableEq, Repr

/-- Governance fields used by `process_cast_vote`: its config and the
active-proposal aggregate counter. -/
structure Governance where
  config : GovernanceConfig
  voting_proposal_count : Nat
  deriving DecidableEq, Repr

/-- The `VoteRecordV2` created as the final step of a successful cast
(source lines 185–193). -/
structure VoteRecordV2 where
  proposal : Nat
  governing_token_owner : Nat
  voter_weight : Nat
  vote : Vote
  is_relinquished : Bool
  deriving DecidableEq, Repr

/-- Modelled from the spec: `get_choice_weight` — a selected choice
yields the full snapshotted voter weight (the weight is not divided among
choices), an unselected choice yields nothing (spec §4.4 `applyVote`). -/
def get_choice_weight (c : VoteChoice) (voter_weight : Nat) : Nat :=
  if c.selected then voter_weight else 0

/-- Modelled from the spec: `assert_can_cast_vote` fails `InvalidState`
unless the proposal state is `Voting` and `now` falls inside the
configured voting window (spec §4.4). -/
def assert_can_cast_vote (p : Proposal) (config : GovernanceConfig) (now : Int) :
    Except ProgramError Unit :=
  if p.state = ProposalState.Voting ∧ p.voting_at ≤ now ∧
      now ≤ p.voting_at + (config.max_voting_time : Int) then
    .ok ()
  else
    .error (.gov .InvalidState)

/-- Modelled from the spec: `assert_valid_vote` fails `InvalidVoteType`
unless, for a choice vote, the selected option count is within bounds
(one choice per option); the other vote values pass through to the
caller's match, which rejects `Abstain`/`Veto` itself (spec §4.4). -/
def assert_valid_vote (p : Proposal) (v : Vote) : Except ProgramError Unit :=
  match v with
  | .Approve choices =>
      if choices.length = p.options.length then .ok ()
      else .error (.gov .InvalidVoteType)
  | .Deny => .ok ()
  | .Abstain => .ok ()
  | .Veto => .ok ()

/-- Modelled from the spec: `decrease_outstanding_proposal_count`
saturates at zero, never underflows (spec §4.2; `Nat` subtraction is
saturating). -/
def decrease_outstanding_proposal_count (t : TokenOwnerRecord) : TokenOwnerRecord :=
  { t with outstanding_proposal_count := t.outstanding_proposal_count - 1 }

/-- Outcome of the injected pass/fail tipping predicate (spec §9: the
exact threshold formula belongs to the out-of-scope governance config and
is modelled as an injected predicate over current tallies and the maximum
voter weight). -/
inductive TipOutcome where
  | NotTipped
  | Succeeded
  | Defeated
  deriving DecidableEq, Repr

/-- The injected tipping predicate: option tallies, deny tally, maximum
voter weight. -/
def TipPred : Type := List Nat → Option Nat → Nat → TipOutcome

/-- Modelled from the spec: `try_tip_vote` evaluates the injected
pass/fail predicate against current tallies and `max_voter_weight`; on
satisfaction it transitions the state to the corresponding terminal
outcome and returns `true`, otherwise leaves the proposal unchanged and
returns `false` (spec §4.4). -/
def try_tip_vote (tp : TipPred) (p : Proposal) (max_voter_weight : Nat) :
    Proposal × Bool :=
  match tp (p.options.map (·.vote_weight)) p.deny_vote_weight max_voter_weight with
  | .NotTipped => (p, false)
  | .Succeeded => ({ p with state := .Succeeded }, true)
  | .Defeated => ({ p with state := .Defeated }, true)

/-- The vote-tally update block of `process_cast_vote` (source lines
114–135): `Approve` folds the zipped options/choices with overflow-checked
adds, `Deny` unwraps the deny accumulator and adds the weight, and
`Abstain`/`Veto` are rejected with `NotSupportedVoteType`. -/
def applyChoices (os : List ProposalOption) (cs : List VoteChoice) (voter_weight : Nat) :
    Except ProgramError (List ProposalOption) :=
  match os, cs with
  | o :: os', c :: cs' =>
      match checkedAdd U64LIMIT o.vote_weight (get_choice_weight c voter_weight) with
      | none => .error (.abort .arithmeticOverflow)
      | some v =>
          match applyChoices os' cs' voter_weight with
          | .error e => .error e
          | .ok rest => .ok ({ vote_weight := v } :: rest)
  | os', [] => .ok os'
  | [], _ => .ok []

/-- The `match &vote { ... }` block of `process_cast_vote` (source lines
114–135), applied to the loaded proposal. -/
def apply_vote (p : Proposal) (vote : Vote) (voter_weight : Nat) :
    Except ProgramError Proposal :=
  match vote with
  | .Approve choices =>
      match applyChoices p.options choices voter_weight with
      | .error e => .error e
      | .ok opts => .ok { p with options := opts }
  | .Deny =>
      match p.deny_vote_weight with
      | none => .error (.abort .denyWeightMissing)
      | some d =>
          match checkedAdd U64LIMIT d voter_weight with
          | none => .error (.abort .arithmeticOverflow)
          | some d' => .ok { p with deny_vote_weight := some d' }
  | .Abstain => .error (.gov .NotSupportedVoteType)
  | .Veto => .error (.gov .NotSupportedVoteType)

/-- The execution context of one `process_cast_vote` invocation: the
emptiness of the vote-record account, the results each out-of-scope
collaborator (account loaders with their validation, signer check, weight
resolvers) would deliver, the relevant account keys and the clock. -/
structure CastVoteCtx where
  vote_record_empty : Bool
  realm_load : Except ProgramError Realm
  governance_load : Except ProgramError Governance
  proposal_load : Except ProgramError Proposal
  voter_token_owner_record_load : Except ProgramError TokenOwnerRecord
  authority_is_owner_or_delegate : Bool
  resolve_voter_weight : Except ProgramError Nat
  resolve_max_voter_weight : Except ProgramError Nat
  proposal_owner_record_load : Except ProgramError TokenOwnerRecord
  proposal_owner_record_key : Nat
  voter_token_owner_record_key : Nat
  proposal_key : Nat
  now : Int
  deriving DecidableEq, Repr

/-- The writes a successful `process_cast_vote` commits: the voter's
token-owner record and the proposal are always serialized; the proposal
owner's record and the Realm/Governance aggregates only when the vote
tipped (and, for the owner record, only when it is a distinct account);
the fresh `VoteRecordV2` is created last. -/
structure CastVoteEffects where
  voter_token_owner_record : TokenOwnerRecord
  proposal : Proposal
  proposal_owner_record_write : Option TokenOwnerRecord
  realm_write : Option Realm
  governance_write : Option Governance
  vote_record : VoteRecordV2
  deriving DecidableEq, Repr

/-- The voter's record after the two counter increments of source lines
85–94 (the checked additions having produced `u` and `t`). -/
def withVoteCounts (rec : TokenOwnerRecord) (u t : Nat) : TokenOwnerRecord :=
  { rec with unrelinquished_votes_count := u, total_votes_count := t }

/-- The `VoteRecordV2` value built at source lines 185–193. -/
def mkVoteRecord (ctx : CastVoteCtx) (voter : TokenOwnerRecord) (voter_weight : Nat)
    (vote : Vote) : VoteRecordV2 :=
  { proposal := ctx.proposal_key
    governing_token_owner := voter.governing_token_owner
    voter_weight := voter_weight
    vote := vote
    is_relinquished := false }

/-- Shallow embedding of `process_cast_vote`
(`src/governance/program/src/processor/process_cast_vote.rs`), step by
step in the source's order: replay check on the vote-record account,
realm/governance/proposal loads, `assert_can_cast_vote`, voter record
load and signer check, the two overflow-checked counter increments,
voter-weight resolution, `assert_valid_vote`, the vote-tally match,
max-voter-weight resolution, `try_tip_vote` with its one-time side
effects, and the final serializations and vote-record creation. -/
def process_cast_vote (tp : TipPred) (ctx : CastVoteCtx) (vote : Vote) :
    Except ProgramError CastVoteEffects :=
  if ctx.vote_record_empty = false then .error (.gov .VoteAlreadyExists) else
  match ctx.realm_load with
  | .error e => .error e
  | .ok realm_data =>
  match ctx.governance_load with
  | .error e => .error e
  | .ok governance_data =>
  match ctx.proposal_load with
  | .error e => .error e
  | .ok proposal_data =>
  match assert_can_cast_vote proposal_data governance_data.config ctx.now with
  | .error e => .error e
  | .ok _ =>
  match ctx.voter_token_owner_record_load with
  | .error e => .error e
  | .ok voter_data =>
  if ctx.authority_is_owner_or_delegate = false then .error (.gov .Unauthorized) else
  match checkedAdd U32LIMIT voter_data.unrelinquished_votes_count 1 with
  | none => .error (.abort .arithmeticOverflow)
  | some u =>
  match checkedAdd U32LIMIT voter_data.total_votes_count 1 with
  | none => .error (.abort .arithmeticOverflow)
  | some t =>
  match ctx.resolve_voter_weight with
  | .error e => .error e
  | .ok voter_weight =>
  match assert_valid_vote proposal_data vote with
  | .error e => .error e
  | .ok _ =>
  match apply_vote proposal_data vote voter_weight with
  | .error e => .error e
  | .ok proposal_voted =>
  match ctx.resolve_max_voter_weight with
  | .error e => .error e
  | .ok max_voter_weight =>
  match try_tip_vote tp proposal_voted max_voter_weight with
  | (proposal_final, true) =>
      match ctx.proposal_owner_record_load with
      | .error e => .error e
      | .ok owner_data =>
        if ctx.proposal_owner_record_key = ctx.voter_token_owner_record_key then
          .ok { voter_token_owner_record :=
                  decrease_outstanding_proposal_count (withVoteCounts voter_data u t)
                proposal := proposal_final
                proposal_owner_record_write := none
                realm_write := some { realm_data with
                  voting_proposal_count := realm_data.voting_proposal_count - 1 }
                governance_write := some { governance_data with
                  voting_proposal_count := governance_data.voting_proposal_count - 1 }
                vote_record := mkVoteRecord ctx (withVoteCounts voter_data u t) voter_weight vote }
        else
          .ok { voter_token_owner_record := withVoteCounts voter_data u t
                proposal := proposal_final
                proposal_owner_record_write :=
                  some (decrease_outstanding_proposal_count owner_data)
                realm_write := some { realm_data with
                  voting_proposal_count := realm_data.voting_proposal_count - 1 }
                governance_write := some { governance_data with
                  voting_proposal_count := governance_data.voting_proposal_count - 1 }
                vote_record := mkVoteRecord ctx (withVoteCounts voter_data u t) voter_weight vote }
  | (proposal_final, false) =>
      .ok { voter_token_owner_record := withVoteCounts voter_data u t
            proposal := proposal_final
            proposal_owner_record_write := none
            realm_write := none
            governance_write := none
            vote_record := mkVoteRecord ctx (withVoteCounts voter_data u t) voter_weight vote }

/-- One account-metadata template entry supplied with the instruction to
insert (signer/writable flags; the pubkey comes from the paired account
reference). -/
structure AccountMetaDataBrief where
  is_signer : Bool
  is_writable : Bool
  deriving DecidableEq, Repr

/-- One fully-resolved account descriptor of a queued instruction. -/
structure AccountMetaData where
  pubkey : Nat
  is_signer : Bool
  is_writable : Bool
  deriving DecidableEq, Repr

/-- One queued instruction: target program, resolved account list, opaque
payload. -/
structure InstructionData where
  program_id : Nat
  accounts : List AccountMetaData
  data : List Nat
  deriving DecidableEq, Repr

/-- The caller-supplied instruction to insert: the account-metadata
template and the opaque payload (the target program and the account
references arrive as accounts). -/
structure InstructionDataBrief where
  accounts : List AccountMetaDataBrief
  data : List Nat
  deriving DecidableEq, Repr

/-- The instruction-queue container: the ordered instruction list
(the container's other bookkeeping fields are owned by the out-of-scope
storage collaborator). -/
structure ProposalTransactionV2 where
  instructions : List InstructionData
  deriving DecidableEq, Repr

/-- Modelled from the spec: `assert_can_edit_instructions` fails
`InvalidState` unless the proposal is in an instruction-editable
pre-voting lifecycle stage (spec §4.5). -/
def assert_can_edit_instructions (p : Proposal) : Except ProgramError Unit :=
  if p.state = ProposalState.Draft ∨ p.state = ProposalState.SigningOff then .ok ()
  else .error (.gov .InvalidState)

/-- The execution context of one `process_insert_instruction`
invocation: emptiness of the queue-container account, collaborator load
results, the signer check, the target program key and the keys of the
supplied account references. -/
structure InsertCtx where
  transaction_account_empty : Bool
  proposal_load : Except ProgramError Proposal
  token_owner_record_load : Except ProgramError TokenOwnerRecord
  authority_is_owner_or_delegate : Bool
  transaction_load : Except ProgramError ProposalTransactionV2
  instruction_program_id : Nat
  instruction_keys : List Nat
  deriving DecidableEq, Repr

/-- The instruction entry built at source lines 58–70 of
`process_insert_instruction.rs`: account references zipped
position-by-position with the metadata template (the zip stops at the
shorter sequence). -/
def mkInstructionData (ctx : InsertCtx) (instruction : InstructionDataBrief) :
    InstructionData :=
  { program_id := ctx.instruction_program_id
    accounts := List.zipWith
      (fun key meta =>
        { pubkey := key, is_signer := meta.is_signer, is_writable := meta.is_writable })
      ctx.instruction_keys instruction.accounts
    data := instruction.data }

/-- Shallow embedding of `process_insert_instruction`
(`src/governance/program/src/processor/process_insert_instruction.rs`),
in the source's order: container-existence check, proposal load,
`assert_can_edit_instructions`, proposal-owner record load and signer
check, queue load, append of the new entry, and the serialization of the
grown queue (the returned value). -/
def process_insert_instruction (ctx : InsertCtx) (instruction : InstructionDataBrief) :
    Except ProgramError ProposalTransactionV2 :=
  if ctx.transaction_account_empty = true then
    .error (.gov .TransactionDoesNotExists) else
  match ctx.proposal_load with
  | .error e => .error e
  | .ok proposal_data =>
  match assert_can_edit_instructions proposal_data with
  | .error e => .error e
  | .ok _ =>
  match ctx.token_owner_record_load with
  | .error e => .error e
  | .ok _ =>
  if ctx.authority_is_owner_or_delegate = false then .error (.gov .Unauthorized) else
  match ctx.transaction_load with
  | .error e => .error e
  | .ok proposal_transaction =>
  .ok { proposal_transaction with
        instructions :=
          proposal_transaction.instructions ++ [mkInstructionData ctx instruction] }

/-- The durable vote-record cell of one (proposal, voter) pair: `none`
while the account is empty, `some` once a successful cast created the
record.  `process_cast_vote` reads its emptiness as the replay guard. -/
def castAttempt (tp : TipPred) (cell : Option VoteRecordV2) (a : CastVoteCtx × Vote) :
    Option VoteRecordV2 × Bool :=
  match process_cast_vote tp { a.1 with vote_record_empty := cell.isNone } a.2 with
  | .ok e => (some e.vote_record, true)
  | .error _ => (cell, false)

/-- Number of successful casts in a sequence of attempts against one
(proposal, voter) vote-record cell, threading the cell through. -/
def countSuccesses (tp : TipPred) (cell : Option VoteRecordV2) :
    List (CastVoteCtx × Vote) → Nat
  | [] => 0
  | a :: rest =>
      let r := castAttempt tp cell a
      (if r.2 then 1 else 0) + countSuccesses tp r.1 rest

/-- Sum of all option `vote_weight` accumulators plus the deny
accumulator of a proposal. -/
def tallySum (p : Proposal) : Nat :=
  (p.options.map (·.vote_weight)).sum + p.deny_vote_weight.getD 0

/-- The resolved voter weight as applied by one cast: once per selected
option for an `Approve` vote, once for a `Deny` vote. -/
def appliedWeight (v : Vote) (w : Nat) : Nat :=
  match v with
  | .Approve cs => (cs.map (fun c => get_choice_weight c w)).sum
  | .Deny => w
  | .Abstain => 0
  | .Veto => 0

/-- One element of a cast sequence against a shared proposal: the rest of
the invocation context and the vote value (the context's proposal load is
overridden with the threaded proposal). -/
structure CastStep where
  ctx : CastVoteCtx
  vote : Vote
  deriving DecidableEq, Repr

/-- Run a sequence of cast-vote attempts against one shared proposal,
threading the written proposal of each successful cast into the next
attempt; failed attempts write nothing.  Returns the final proposal and
the total resolved voter weight applied by the successful casts. -/
def runCasts (tp : TipPred) (p : Proposal) : List CastStep → Proposal × Nat
  | [] => (p, 0)
  | s :: rest =>
      match process_cast_vote tp { s.ctx with proposal_load := .ok p } s.vote with
      | .ok e =>
          let r := runCasts tp e.proposal rest
          (r.1, appliedWeight s.vote e.vote_record.voter_weight + r.2)
      | .error _ => runCasts tp p rest

/-- A tipping predicate that never tips (fixture for concrete runs). -/
def tpNever : TipPred := fun _ _ _ => .NotTipped

/-- A tipping predicate that always finalizes as succeeded (fixture). -/
def tpAlways : TipPred := fun _ _ _ => .Succeeded

/-- A two-option Voting-state proposal with zeroed tallies (fixture). -/
def p0 : Proposal :=
  { token_owner_record := 3
    options := [{ vote_weight := 0 }, { vote_weight := 0 }]
    deny_vote_weight := some 0
    state := .Voting
    voting_at := 0 }

/-- A fresh token-owner record (fixture). -/
def tor0 : TokenOwnerRecord :=
  { governing_token_owner := 7
    unrelinquished_votes_count := 0
    total_votes_count := 0
    outstanding_proposal_count := 2 }

/-- A cast-vote context in which every collaborator succeeds and every
precondition holds (fixture for witnesses). -/
def ctxOk : CastVoteCtx :=
  { vote_record_empty := true
    realm_load := .ok { voting_proposal_count := 1 }
    governance_load := .ok { config := { max_voting_time := 10 }, voting_proposal_count := 1 }
    proposal_load := .ok p0
    voter_token_owner_record_load := .ok tor0
    authority_is_owner_or_delegate := true
    resolve_voter_weight := .ok 100
    resolve_max_voter_weight := .ok 200
    proposal_owner_record_load := .ok tor0
    proposal_owner_record_key := 3
    voter_token_owner_record_key := 3
    proposal_key := 2
    now := 5 }

/-- The replay guard of source lines 55–57: a non-empty vote-record
account fails `VoteAlreadyExists` before any record is loaded. -/
theorem process_cast_vote_replay (tp : TipPred) (ctx : CastVoteCtx) (vote : Vote)
    (h : ctx.vote_record_empty = false) :
    process_cast_vote tp ctx vote = .error (.gov .VoteAlreadyExists) := by
  unfold process_cast_vote
  simp [h]

/-- A cast attempt against an already-filled vote-record cell fails and
leaves the cell unchanged. -/
theorem castAttempt_filled (tp : TipPred) (vr : VoteRecordV2) (a : CastVoteCtx × Vote) :
    castAttempt tp (some vr) a = (some vr, false) := by
  unfold castAttempt
  rw [process_cast_vote_replay tp _ a.2 rfl]

/-- No attempt in a sequence started on a filled vote-record cell ever
succeeds. -/
theorem countSuccesses_filled (tp : TipPred) (vr : VoteRecordV2)
    (attempts : List (CastVoteCtx × Vote)) :
    countSuccesses tp (some vr) attempts = 0 := by
  induction attempts with
  | nil => rfl
  | cons a rest ih =>
      unfold countSuccesses
      rw [castAttempt_filled]
      simpa using ih

/-- A cast attempt either succeeds and fills the cell, or fails and
leaves it unchanged. -/
theorem castAttempt_cases (tp : TipPred) (cell : Option VoteRecordV2)
    (a : CastVoteCtx × Vote) :
    (∃ vr, castAttempt tp cell a = (some vr, true)) ∨
    castAttempt tp cell a = (cell, false) := by
  unfold castAttempt
  cases h : process_cast_vote tp { a.1 with vote_record_empty := cell.isNone } a.2 with
  | ok e => exact Or.inl ⟨e.vote_record, rfl⟩
  | error e => exact Or.inr rfl

/-- C1: a cast-vote invocation whose VoteRecord account is already
non-empty fails `VoteAlreadyExists` before any record is loaded or
mutated (the context's loader results are arbitrary and the error result
carries no writes), and hence in any sequence of cast attempts against
one (proposal, voter) vote-record cell at most one cast ever succeeds. -/
theorem cast_vote_replay_guard_at_most_one_success (tp : TipPred) :
    (∀ ctx vote, ctx.vote_record_empty = false →
        process_cast_vote tp ctx vote = .error (.gov .VoteAlreadyExists)) ∧
    (∀ attempts : List (CastVoteCtx × Vote), countSuccesses tp none attempts ≤ 1) := by
  refine ⟨fun ctx vote h => process_cast_vote_replay tp ctx vote h, ?_⟩
  intro attempts
  induction attempts with
  | nil => simp [countSuccesses]
  | cons a rest ih =>
      unfold countSuccesses
      rcases castAttempt_cases tp none a with ⟨vr, hc⟩ | hc <;> rw [hc] <;> simp
      · exact countSuccesses_filled tp vr rest
      · exact ih

/-- C1 witness: concrete instance — a cast against a ctx whose
vote-record account is filled fails `VoteAlreadyExists`, and a concrete
two-attempt sequence has at most one success. -/
theorem cast_vote_replay_guard_witness :
    process_cast_vote tpNever { ctxOk with vote_record_empty := false } Vote.Deny =
      .error (.gov .VoteAlreadyExists) ∧
    countSuccesses tpNever none [(ctxOk, Vote.Deny), (ctxOk, Vote.Deny)] ≤ 1 :=
  ⟨(cast_vote_replay_guard_at_most_one_success tpNever).1
      { ctxOk with vote_record_empty := false } Vote.Deny rfl,
   (cast_vote_replay_guard_at_most_one_success tpNever).2
      [(ctxOk, Vote.Deny), (ctxOk, Vote.Deny)]⟩

/-- C9: an insert-instruction invocation whose queue-container account is
empty fails `TransactionDoesNotExists` regardless of every other context
field — in particular before the proposal, token-owner record or queue
contents are loaded or validated (those loader fields are arbitrary,
failing ones included). -/
theorem insert_requires_existing_transaction (ctx : InsertCtx)
    (instruction : InstructionDataBrief)
    (h : ctx.transaction_account_empty = true) :
    process_insert_instruction ctx instruction =
      .error (.gov .TransactionDoesNotExists) := by
  unfold process_insert_instruction
  simp [h]

/-- An insert-instruction context whose collaborator loads all fail
(fixture: exercises that the emptiness check precedes every load). -/
def ictxAllFail : InsertCtx :=
  { transaction_account_empty := true
    proposal_load := .error (.other 11)
    token_owner_record_load := .error (.other 12)
    authority_is_owner_or_delegate := false
    transaction_load := .error (.other 13)
    instruction_program_id := 0
    instruction_keys := [] }

/-- C9 witness: the concrete empty-container context fails
`TransactionDoesNotExists` even though all of its loaders would fail. -/
theorem insert_requires_existing_transaction_witness :
    process_insert_instruction ictxAllFail { accounts := [], data := [] } =
      .error (.gov .TransactionDoesNotExists) :=
  insert_requires_existing_transaction ictxAllFail { accounts := [], data := [] } rfl

/-- C5: a cast on a proposal whose state is not `Voting`, or at a time
outside the configured voting window, fails `InvalidState`.  The voter
record, authority flag and both weight-resolver fields of the context are
universally quantified (failing resolvers included), so the failure is
decided before any voter-weight resolution and before the voter's vote
counters are touched; the error result carries no writes. -/
theorem cast_vote_gating (tp : TipPred) (ctx : CastVoteCtx) (vote : Vote)
    (realm : Realm) (gov : Governance) (p : Proposal)
    (hempty : ctx.vote_record_empty = true)
    (hre : ctx.realm_load = .ok realm)
    (hgo : ctx.governance_load = .ok gov)
    (hp : ctx.proposal_load = .ok p)
    (hbad : p.state ≠ ProposalState.Voting ∨
        ¬ (p.voting_at ≤ ctx.now ∧
            ctx.now ≤ p.voting_at + (gov.config.max_voting_time : Int))) :
    process_cast_vote tp ctx vote = .error (.gov .InvalidState) := by
  have hcc : assert_can_cast_vote p gov.config ctx.now = .error (.gov .InvalidState) := by
    unfold assert_can_cast_vote
    rcases hbad with h | h <;> simp [h]
  unfold process_cast_vote
  simp [hempty, hre, hgo, hp, hcc]

/-- C5 witness: a concrete cast on a Draft-state proposal (all other
collaborators would succeed) fails `InvalidState`. -/
theorem cast_vote_gating_witness :
    process_cast_vote tpNever
      { ctxOk with proposal_load := .ok { p0 with state := .Draft } } Vote.Deny =
      .error (.gov .InvalidState) :=
  cast_vote_gating tpNever
    { ctxOk with proposal_load := .ok { p0 with state := .Draft } } Vote.Deny
    { voting_proposal_count := 1 }
    { config := { max_voting_time := 10 }, voting_proposal_count := 1 }
    { p0 with state := .Draft }
    rfl rfl rfl rfl (Or.inl (by decide))

/-- C4: when incrementing the voter's `unrelinquished_votes_count` or
`total_votes_count` by 1 would overflow the u32 counter, the operation
aborts with the fatal arithmetic-overflow `unwrap` (the spec's
`ArithmeticOverflow`); the error result carries no writes and the counter
is never wrapped. -/
theorem cast_vote_counter_overflow (tp : TipPred) (ctx : CastVoteCtx) (vote : Vote)
    (realm : Realm) (gov : Governance) (p : Proposal) (voter : TokenOwnerRecord)
    (hempty : ctx.vote_record_empty = true)
    (hre : ctx.realm_load = .ok realm)
    (hgo : ctx.governance_load = .ok gov)
    (hp : ctx.proposal_load = .ok p)
    (hcc : assert_can_cast_vote p gov.config ctx.now = .ok ())
    (hv : ctx.voter_token_owner_record_load = .ok voter)
    (hauth : ctx.authority_is_owner_or_delegate = true)
    (hover : U32LIMIT ≤ voter.unrelinquished_votes_count + 1 ∨
        U32LIMIT ≤ voter.total_votes_count + 1) :
    process_cast_vote tp ctx vote = .error (.abort .arithmeticOverflow) := by
  unfold process_cast_vote
  by_cases h1 : voter.unrelinquished_votes_count + 1 < U32LIMIT
  · have h2 : ¬ voter.total_votes_count + 1 < U32LIMIT := by
      rcases hover with h | h <;> omega
    simp [hempty, hre, hgo, hp, hcc, hv, hauth, checkedAdd, h1, h2]
  · simp [hempty, hre, hgo, hp, hcc, hv, hauth, checkedAdd, h1]

/-- A voter record whose unrelinquished counter sits at the u32 maximum
(fixture for the overflow witness). -/
def torMax : TokenOwnerRecord :=
  { tor0 with unrelinquished_votes_count := U32LIMIT - 1 }

/-- C4 witness: a concrete cast by a voter whose unrelinquished counter
is at the u32 maximum aborts with the arithmetic-overflow panic. -/
theorem cast_vote_counter_overflow_witness :
    process_cast_vote tpNever
      { ctxOk with voter_token_owner_record_load := .ok torMax } Vote.Deny =
      .error (.abort .arithmeticOverflow) :=
  cast_vote_counter_overflow tpNever
    { ctxOk with voter_token_owner_record_load := .ok torMax } Vote.Deny
    { voting_proposal_count := 1 }
    { config := { max_voting_time := 10 }, voting_proposal_count := 1 }
    p0 torMax
    rfl rfl rfl rfl (by decide) rfl rfl (Or.inl (by decide))

/-- C6: a cast whose vote value is `Abstain` or `Veto` fails
`NotSupportedVoteType` even when every other precondition holds (record
empty, loads succeed, proposal votable, authority valid, counters in
range, weight resolvable). -/
theorem cast_vote_rejects_abstain_veto (tp : TipPred) (ctx : CastVoteCtx) (vote : Vote)
    (realm : Realm) (gov : Governance) (p : Proposal) (voter : TokenOwnerRecord) (w : Nat)
    (hempty : ctx.vote_record_empty = true)
    (hre : ctx.realm_load = .ok realm)
    (hgo : ctx.governance_load = .ok gov)
    (hp : ctx.proposal_load = .ok p)
    (hcc : assert_can_cast_vote p gov.config ctx.now = .ok ())
    (hv : ctx.voter_token_owner_record_load = .ok voter)
    (hauth : ctx.authority_is_owner_or_delegate = true)
    (hu : voter.unrelinquished_votes_count + 1 < U32LIMIT)
    (ht : voter.total_votes_count + 1 < U32LIMIT)
    (hw : ctx.resolve_voter_weight = .ok w)
    (hvote : vote = Vote.Abstain ∨ vote = Vote.Veto) :
    process_cast_vote tp ctx vote = .error (.gov .NotSupportedVoteType) := by
  unfold process_cast_vote
  rcases hvote with h | h <;> subst h <;>
    simp [hempty, hre, hgo, hp, hcc, hv, hauth, checkedAdd, hu, ht, hw,
      assert_valid_vote, apply_vote]

/-- C6 witness: a concrete `Abstain` cast with every other precondition
satisfied fails `NotSupportedVoteType`. -/
theorem cast_vote_rejects_abstain_veto_witness :
    process_cast_vote tpNever ctxOk Vote.Abstain =
      .error (.gov .NotSupportedVoteType) :=
  cast_vote_rejects_abstain_veto tpNever ctxOk Vote.Abstain
    { voting_proposal_count := 1 }
    { config := { max_voting_time := 10 }, voting_proposal_count := 1 }
    p0 tor0 100
    rfl rfl rfl rfl (by decide) rfl rfl (by decide) (by decide) rfl (Or.inl rfl)

/-- Tipping never changes the tallies: only the lifecycle state moves. -/
theorem try_tip_vote_tallies (tp : TipPred) (p : Proposal) (maxw : Nat) :
    (try_tip_vote tp p maxw).1.options = p.options ∧
    (try_tip_vote tp p maxw).1.deny_vote_weight = p.deny_vote_weight := by
  unfold try_tip_vote
  cases tp (p.options.map (·.vote_weight)) p.deny_vote_weight maxw <;> simp

/-- A successful cast implies the vote-record account was empty. -/
theorem cast_vote_ok_record_empty (tp : TipPred) (ctx : CastVoteCtx) (vote : Vote)
    (e : CastVoteEffects) (h : process_cast_vote tp ctx vote = .ok e) :
    ctx.vote_record_empty = true := by
  by_contra hb
  rw [process_cast_vote_replay tp ctx vote (by simpa using hb)] at h
  exact Except.noConfusion h

/-- A successful cast implies the realm load succeeded. -/
theorem cast_vote_ok_realm (tp : TipPred) (ctx : CastVoteCtx) (vote : Vote)
    (e : CastVoteEffects) (h : process_cast_vote tp ctx vote = .ok e) :
    ∃ realm, ctx.realm_load = .ok realm := by
  have hempty := cast_vote_ok_record_empty tp ctx vote e h
  cases hr : ctx.realm_load with
  | ok realm => exact ⟨realm, rfl⟩
  | error er =>
      unfold process_cast_vote at h
      simp [hempty, hr] at h

/-- A successful cast implies the governance load succeeded. -/
theorem cast_vote_ok_governance (tp : TipPred) (ctx : CastVoteCtx) (vote : Vote)
    (e : CastVoteEffects) (h : process_cast_vote tp ctx vote = .ok e) :
    ∃ gov, ctx.governance_load = .ok gov := by
  have hempty := cast_vote_ok_record_empty tp ctx vote e h
  obtain ⟨realm, hr⟩ := cast_vote_ok_realm tp ctx vote e h
  cases hg : ctx.governance_load with
  | ok gov => exact ⟨gov, rfl⟩
  | error er =>
      unfold process_cast_vote at h
      simp [hempty, hr, hg] at h

/-- Full characterization of a successful cast with a known loaded
proposal: every intermediate stage resolved, and the committed effects
are exactly those of source lines 146–204. -/
theorem cast_vote_ok_shape (tp : TipPred) (ctx : CastVoteCtx) (vote : Vote)
    (e : CastVoteEffects) (p : Proposal)
    (hp : ctx.proposal_load = .ok p)
    (h : process_cast_vote tp ctx vote = .ok e) :
    ∃ realm gov voter w maxw p1 u t,
      ctx.vote_record_empty = true ∧
      ctx.realm_load = .ok realm ∧
      ctx.governance_load = .ok gov ∧
      assert_can_cast_vote p gov.config ctx.now = .ok () ∧
      ctx.voter_token_owner_record_load = .ok voter ∧
      ctx.authority_is_owner_or_delegate = true ∧
      checkedAdd U32LIMIT voter.unrelinquished_votes_count 1 = some u ∧
      checkedAdd U32LIMIT voter.total_votes_count 1 = some t ∧
      ctx.resolve_voter_weight = .ok w ∧
      assert_valid_vote p vote = .ok () ∧
      apply_vote p vote w = .ok p1 ∧
      ctx.resolve_max_voter_weight = .ok maxw ∧
      e.proposal = (try_tip_vote tp p1 maxw).1 ∧
      e.vote_record = mkVoteRecord ctx (withVoteCounts voter u t) w vote ∧
      (if (try_tip_vote tp p1 maxw).2 then
        ∃ owner, ctx.proposal_owner_record_load = .ok owner ∧
          e.realm_write = some { realm with
            voting_proposal_count := realm.voting_proposal_count - 1 } ∧
          e.governance_write = some { gov with
            voting_proposal_count := gov.voting_proposal_count - 1 } ∧
          ((ctx.proposal_owner_record_key = ctx.voter_token_owner_record_key ∧
            e.voter_token_owner_record =
              decrease_outstanding_proposal_count (withVoteCounts voter u t) ∧
            e.proposal_owner_record_write = none) ∨
           (ctx.proposal_owner_record_key ≠ ctx.voter_token_owner_record_key ∧
            e.voter_token_owner_record = withVoteCounts voter u t ∧
            e.proposal_owner_record_write =
              some (decrease_outstanding_proposal_count owner)))
      else
        e.voter_token_owner_record = withVoteCounts voter u t ∧
        e.proposal_owner_record_write = none ∧
        e.realm_write = none ∧
        e.governance_write = none) := by
  have hempty := cast_vote_ok_record_empty tp ctx vote e h
  obtain ⟨realm, hr⟩ := cast_vote_ok_realm tp ctx vote e h
  obtain ⟨gov, hg⟩ := cast_vote_ok_governance tp ctx vote e h
  unfold process_cast_vote at h
  simp only [hempty, Bool.true_eq_false, if_false, hr, hg, hp] at h
  cases hcc : assert_can_cast_vote p gov.config ctx.now with
  | error er => simp [hcc] at h
  | ok u0 =>
  cases u0
  simp only [hcc] at h
  cases hv : ctx.voter_token_owner_record_load with
  | error er => simp [hv] at h
  | ok voter =>
  simp only [hv] at h
  by_cases hauth : ctx.authority_is_owner_or_delegate = false
  · simp [hauth] at h
  have hauth' : ctx.authority_is_owner_or_delegate = true := by simpa using hauth
  simp only [hauth', Bool.true_eq_false, if_false] at h
  cases hu : checkedAdd U32LIMIT voter.unrelinquished_votes_count 1 with
  | none => simp [hu] at h
  | some u =>
  simp only [hu] at h
  cases ht : checkedAdd U32LIMIT voter.total_votes_count 1 with
  | none => simp [ht] at h
  | some t =>
  simp only [ht] at h
  cases hw : ctx.resolve_voter_weight with
  | error er => simp [hw] at h
  | ok w =>
  simp only [hw] at h
  cases hval : assert_valid_vote p vote with
  | error er => simp [hval] at h
  | ok u1 =>
  cases u1
  simp only [hval] at h
  cases hap : apply_vote p vote w with
  | error er => simp [hap] at h
  | ok p1 =>
  simp only [hap] at h
  cases hmw : ctx.resolve_max_voter_weight with
  | error er => simp [hmw] at h
  | ok maxw =>
  simp only [hmw] at h
  cases htip : try_tip_vote tp p1 maxw with
  | mk pf b =>
  cases b with
  | true =>
      simp only [htip] at h
      cases how : ctx.proposal_owner_record_load with
      | error er => simp [how] at h
      | ok owner =>
      simp only [how] at h
      by_cases hkeys : ctx.proposal_owner_record_key = ctx.voter_token_owner_record_key
      · simp only [hkeys, if_true, Except.ok.injEq] at h
        subst h
        refine ⟨realm, gov, voter, w, maxw, p1, u, t, hempty, hr, hg, hcc, rfl,
          hauth', hu, ht, rfl, rfl, hap, rfl, by rw [htip], rfl, ?_⟩
        rw [htip]
        simp [hkeys]
      · simp only [hkeys, if_false, Except.ok.injEq] at h
        subst h
        refine ⟨realm, gov, voter, w, maxw, p1, u, t, hempty, hr, hg, hcc, rfl,
          hauth', hu, ht, rfl, rfl, hap, rfl, by rw [htip], rfl, ?_⟩
        rw [htip]
        simp [hkeys]
  | false =>
      simp only [htip, Except.ok.injEq] at h
      subst h
      refine ⟨realm, gov, voter, w, maxw, p1, u, t, hempty, hr, hg, hcc, rfl,
        hauth', hu, ht, rfl, rfl, hap, rfl, by rw [htip], rfl, ?_⟩
      rw [htip]
      simp

/-- A `checkedAdd` that returns `some` returns the exact (non-wrapped)
sum, which is below the limit. -/
theorem checkedAdd_some (limit a b v : Nat) (h : checkedAdd limit a b = some v) :
    v = a + b ∧ a + b < limit := by
  unfold checkedAdd at h
  by_cases hb : a + b < limit
  · rw [if_pos hb] at h
    exact ⟨(Option.some.inj h).symm, hb⟩
  · rw [if_neg hb] at h
    exact Option.noConfusion h

/-- A successful `applyChoices` run adds exactly the per-choice weights
to the summed option tallies. -/
theorem applyChoices_sum (w : Nat) :
    ∀ (os : List ProposalOption) (cs : List VoteChoice) (os' : List ProposalOption),
      cs.length ≤ os.length →
      applyChoices os cs w = .ok os' →
      (os'.map (·.vote_weight)).sum =
        (os.map (·.vote_weight)).sum + (cs.map (fun c => get_choice_weight c w)).sum := by
  intro os
  induction os with
  | nil =>
      intro cs os' hlen h
      cases cs with
      | nil =>
          simp only [applyChoices, Except.ok.injEq] at h
          subst h
          simp
      | cons c cs' => simp at hlen
  | cons o os ih =>
      intro cs os' hlen h
      cases cs with
      | nil =>
          simp only [applyChoices, Except.ok.injEq] at h
          subst h
          simp
      | cons c cs' =>
          unfold applyChoices at h
          cases hca : checkedAdd U64LIMIT o.vote_weight (get_choice_weight c w) with
          | none => simp [hca] at h
          | some v =>
              simp only [hca] at h
              cases hrec : applyChoices os cs' w with
              | error er => simp [hrec] at h
              | ok rest =>
                  simp only [hrec, Except.ok.injEq] at h
                  subst h
                  have hrec_sum := ih cs' rest (by simpa using hlen) hrec
                  obtain ⟨hv, _⟩ := checkedAdd_some _ _ _ _ hca
                  simp only [List.map_cons, List.sum_cons]
                  omega

/-- An `assert_valid_vote` pass on an `Approve` vote pins the choice count
to the option count. -/
theorem assert_valid_vote_approve_length (p : Proposal) (cs : List VoteChoice)
    (h : assert_valid_vote p (.Approve cs) = .ok ()) :
    cs.length = p.options.length := by
  simp only [assert_valid_vote] at h
  by_cases hl : cs.length = p.options.length
  · exact hl
  · rw [if_neg hl] at h
    exact Except.noConfusion h

/-- A successful (validated) tally update adds exactly the applied
weight to the summed tallies. -/
theorem apply_vote_tallySum (p : Proposal) (vote : Vote) (w : Nat) (p1 : Proposal)
    (hval : assert_valid_vote p vote = .ok ())
    (h : apply_vote p vote w = .ok p1) :
    tallySum p1 = tallySum p + appliedWeight vote w := by
  cases vote with
  | Approve cs =>
      have hlen := assert_valid_vote_approve_length p cs hval
      unfold apply_vote at h
      cases hac : applyChoices p.options cs w with
      | error er => simp [hac] at h
      | ok opts =>
          simp only [hac, Except.ok.injEq] at h
          subst h
          have hs := applyChoices_sum w p.options cs opts (le_of_eq hlen) hac
          simp only [tallySum, appliedWeight]
          omega
  | Deny =>
      unfold apply_vote at h
      cases hd : p.deny_vote_weight with
      | none => simp [hd] at h
      | some d =>
          simp only [hd] at h
          cases hca : checkedAdd U64LIMIT d w with
          | none => simp [hca] at h
          | some v =>
              simp only [hca, Except.ok.injEq] at h
              subst h
              obtain ⟨hv, _⟩ := checkedAdd_some _ _ _ _ hca
              simp only [tallySum, appliedWeight, hd, Option.getD_some]
              omega
  | Abstain => simp [apply_vote] at h
  | Veto => simp [apply_vote] at h

/-- A successful cast increases the proposal's summed tallies by exactly
the applied resolved weight snapshotted into the created vote record. -/
theorem cast_vote_ok_tally (tp : TipPred) (ctx : CastVoteCtx) (vote : Vote)
    (e : CastVoteEffects) (p : Proposal)
    (hp : ctx.proposal_load = .ok p)
    (h : process_cast_vote tp ctx vote = .ok e) :
    tallySum e.proposal = tallySum p + appliedWeight vote e.vote_record.voter_weight := by
  obtain ⟨realm, gov, voter, w, maxw, p1, u, t, -, -, -, -, -, -, -, -, -, hval, hap, -,
    hep, hvr, -⟩ := cast_vote_ok_shape tp ctx vote e p hp h
  have h1 := apply_vote_tallySum p vote w p1 hval hap
  have h2 := try_tip_vote_tallies tp p1 maxw
  have h3 : tallySum (try_tip_vote tp p1 maxw).1 = tallySum p1 := by
    unfold tallySum
    rw [h2.1, h2.2]
  rw [hep, hvr, h3, h1]
  simp [mkVoteRecord]

/-- C3: across any sequence of cast-vote attempts threaded through one
proposal, the sum of the option accumulators plus the deny accumulator is
non-decreasing, and after the sequence it equals its initial value plus
the total resolved voter weight applied by the successful casts (each
cast's snapshotted weight counted once per accumulator application:
once per selected option for `Approve`, once for `Deny`). -/
theorem cast_vote_tally_monotone_and_accounted (tp : TipPred) (p : Proposal)
    (steps : List CastStep) :
    tallySum (runCasts tp p steps).1 = tallySum p + (runCasts tp p steps).2 ∧
    tallySum p ≤ tallySum (runCasts tp p steps).1 := by
  induction steps generalizing p with
  | nil => simp [runCasts]
  | cons s rest ih =>
      rw [runCasts]
      cases h : process_cast_vote tp { s.ctx with proposal_load := .ok p } s.vote with
      | error er => simpa using ih p
      | ok e =>
          have htal := cast_vote_ok_tally tp _ s.vote e p rfl h
          obtain ⟨ih1, ih2⟩ := ih e.proposal
          constructor
          · simp only []
            omega
          · simp only []
            omega

/-- C2: on a successful cast, if `try_tip_vote` returns true then the
proposal owner's `outstanding_proposal_count` is decremented exactly once
— applied to the voter's already-loaded record when the owner record
account key equals the voter record account key, otherwise to a
separately loaded owner record persisted on its own — and the Realm and
Governance `voting_proposal_count` aggregates are each decremented by
exactly 1 (`Nat` subtraction saturates at zero); if `try_tip_vote`
returns false, none of these three counters change and no owner, realm
or governance write happens. -/
theorem cast_vote_tip_side_effects (tp : TipPred) (ctx : CastVoteCtx) (vote : Vote)
    (e : CastVoteEffects) (realm : Realm) (gov : Governance) (p : Proposal)
    (voter : TokenOwnerRecord) (w maxw : Nat) (p1 : Proposal)
    (hre : ctx.realm_load = .ok realm)
    (hgo : ctx.governance_load = .ok gov)
    (hp : ctx.proposal_load = .ok p)
    (hv : ctx.voter_token_owner_record_load = .ok voter)
    (hw : ctx.resolve_voter_weight = .ok w)
    (hap : apply_vote p vote w = .ok p1)
    (hmw : ctx.resolve_max_voter_weight = .ok maxw)
    (h : process_cast_vote tp ctx vote = .ok e) :
    if (try_tip_vote tp p1 maxw).2 then
      e.realm_write = some { realm with
        voting_proposal_count := realm.voting_proposal_count - 1 } ∧
      e.governance_write = some { gov with
        voting_proposal_count := gov.voting_proposal_count - 1 } ∧
      (ctx.proposal_owner_record_key = ctx.voter_token_owner_record_key →
        e.voter_token_owner_record.outstanding_proposal_count =
          voter.outstanding_proposal_count - 1 ∧
        e.proposal_owner_record_write = none) ∧
      (ctx.proposal_owner_record_key ≠ ctx.voter_token_owner_record_key →
        ∃ owner, ctx.proposal_owner_record_load = .ok owner ∧
          e.proposal_owner_record_write =
            some (decrease_outstanding_proposal_count owner) ∧
          e.proposal_owner_record_write.map (·.outstanding_proposal_count) =
            some (owner.outstanding_proposal_count - 1) ∧
          e.voter_token_owner_record.outstanding_proposal_count =
            voter.outstanding_proposal_count)
    else
      e.realm_write = none ∧
      e.governance_write = none ∧
      e.proposal_owner_record_write = none ∧
      e.voter_token_owner_record.outstanding_proposal_count =
        voter.outstanding_proposal_count := by
  obtain ⟨realm', gov', voter', w', maxw', p1', u, t, hempty, hre', hgo', hcc, hv', hauth,
    hu, ht, hw', hval, hap', hmw', hep, hvr, htail⟩ :=
    cast_vote_ok_shape tp ctx vote e p hp h
  rw [hre] at hre'
  obtain rfl : realm = realm' := Except.ok.inj hre'
  rw [hgo] at hgo'
  obtain rfl : gov = gov' := Except.ok.inj hgo'
  rw [hv] at hv'
  obtain rfl : voter = voter' := Except.ok.inj hv'
  rw [hw] at hw'
  obtain rfl : w = w' := Except.ok.inj hw'
  rw [hmw] at hmw'
  obtain rfl : maxw = maxw' := Except.ok.inj hmw'
  rw [hap] at hap'
  obtain rfl : p1 = p1' := Except.ok.inj hap'
  by_cases htip : (try_tip_vote tp p1 maxw).2 = true
  · rw [if_pos htip] at htail
    rw [if_pos htip]
    obtain ⟨owner, how, hrw, hgw, hcases⟩ := htail
    refine ⟨hrw, hgw, ?_, ?_⟩
    · intro hkeq
      rcases hcases with ⟨-, hvt, hpw⟩ | ⟨hkne, -, -⟩
      · rw [hvt]
        exact ⟨rfl, hpw⟩
      · exact absurd hkeq hkne
    · intro hkne
      rcases hcases with ⟨hkeq, -, -⟩ | ⟨-, hvt, hpw⟩
      · exact absurd hkeq hkne
      · refine ⟨owner, how, hpw, ?_, ?_⟩
        · rw [hpw]
          simp [decrease_outstanding_proposal_count]
        · rw [hvt]
          simp [withVoteCounts]
  · rw [if_neg htip] at htail
    rw [if_neg htip]
    obtain ⟨hvt, hpw, hrw, hgw⟩ := htail
    refine ⟨hrw, hgw, hpw, ?_⟩
    rw [hvt]
    simp [withVoteCounts]

/-- The effects committed by the concrete tipped Deny cast of the C2
witness (fixture). -/
def eTip : CastVoteEffects :=
  { voter_token_owner_record :=
      { governing_token_owner := 7, unrelinquished_votes_count := 1,
        total_votes_count := 1, outstanding_proposal_count := 1 }
    proposal :=
      { token_owner_record := 3,
        options := [{ vote_weight := 0 }, { vote_weight := 0 }],
        deny_vote_weight := some 100, state := .Succeeded, voting_at := 0 }
    proposal_owner_record_write := none
    realm_write := some { voting_proposal_count := 0 }
    governance_write := some { config := { max_voting_time := 10 }, voting_proposal_count := 0 }
    vote_record :=
      { proposal := 2, governing_token_owner := 7, voter_weight := 100,
        vote := .Deny, is_relinquished := false } }

/-- C2 witness: the concrete Deny cast under an always-tipping predicate
tips, decrements the (aliased) owner record once and both aggregates by
exactly 1. -/
theorem cast_vote_tip_side_effects_witness :
    if (try_tip_vote tpAlways { p0 with deny_vote_weight := some 100 } 200).2 then
      eTip.realm_write = some { voting_proposal_count := (1 : Nat) - 1 } ∧
      eTip.governance_write =
        some { config := { max_voting_time := 10 }, voting_proposal_count := (1 : Nat) - 1 } ∧
      (ctxOk.proposal_owner_record_key = ctxOk.voter_token_owner_record_key →
        eTip.voter_token_owner_record.outstanding_proposal_count =
          tor0.outstanding_proposal_count - 1 ∧
        eTip.proposal_owner_record_write = none) ∧
      (ctxOk.proposal_owner_record_key ≠ ctxOk.voter_token_owner_record_key →
        ∃ owner, ctxOk.proposal_owner_record_load = .ok owner ∧
          eTip.proposal_owner_record_write =
            some (decrease_outstanding_proposal_count owner) ∧
          eTip.proposal_owner_record_write.map (·.outstanding_proposal_count) =
            some (owner.outstanding_proposal_count - 1) ∧
          eTip.voter_token_owner_record.outstanding_proposal_count =
            tor0.outstanding_proposal_count)
    else
      eTip.realm_write = none ∧
      eTip.governance_write = none ∧
      eTip.proposal_owner_record_write = none ∧
      eTip.voter_token_owner_record.outstanding_proposal_count =
        tor0.outstanding_proposal_count :=
  cast_vote_tip_side_effects tpAlways ctxOk Vote.Deny eTip
    { voting_proposal_count := 1 }
    { config := { max_voting_time := 10 }, voting_proposal_count := 1 }
    p0 tor0 100 200 { p0 with deny_vote_weight := some 100 }
    rfl rfl rfl rfl rfl rfl rfl rfl

/-- A successful `applyChoices` run on matched-length lists is exactly
the position-by-position addition of each choice's weight to its
option. -/
theorem applyChoices_eq_zipWith (w : Nat) :
    ∀ (os : List ProposalOption) (cs : List VoteChoice) (os' : List ProposalOption),
      cs.length = os.length →
      applyChoices os cs w = .ok os' →
      os' = List.zipWith
        (fun o c => { vote_weight := o.vote_weight + get_choice_weight c w }) os cs := by
  intro os
  induction os with
  | nil =>
      intro cs os' hlen h
      cases cs with
      | nil =>
          simp only [applyChoices, Except.ok.injEq] at h
          subst h
          simp
      | cons c cs' => simp at hlen
  | cons o os ih =>
      intro cs os' hlen h
      cases cs with
      | nil => simp at hlen
      | cons c cs' =>
          unfold applyChoices at h
          cases hca : checkedAdd U64LIMIT o.vote_weight (get_choice_weight c w) with
          | none => simp [hca] at h
          | some v =>
              simp only [hca] at h
              cases hrec : applyChoices os cs' w with
              | error er => simp [hrec] at h
              | ok rest =>
                  simp only [hrec, Except.ok.injEq] at h
                  subst h
                  obtain ⟨hv, -⟩ := checkedAdd_some _ _ _ _ hca
                  have hr := ih cs' rest (by simpa using hlen) hrec
                  simp [List.zipWith_cons_cons, hv, hr]

/-- C7: on a successful cast of `Approve cs` with resolved weight `w`,
each selected option's accumulator grows by the full weight `w` and each
unselected option is unchanged — position by position, the new option
list adds `get_choice_weight c w` (that is, `w` for a selected choice and
`0` otherwise) to every option, never dividing the weight — and the deny
accumulator is untouched; on a successful `Deny` cast the deny
accumulator grows by exactly `w` and the options are untouched; the
created vote record snapshots `w`. -/
theorem cast_vote_applies_full_weight (tp : TipPred) (ctx : CastVoteCtx) (vote : Vote)
    (e : CastVoteEffects) (p : Proposal) (w : Nat)
    (hp : ctx.proposal_load = .ok p)
    (hw : ctx.resolve_voter_weight = .ok w)
    (h : process_cast_vote tp ctx vote = .ok e) :
    (∀ cs, vote = .Approve cs →
      cs.length = p.options.length ∧
      e.proposal.options = List.zipWith
        (fun o c => { vote_weight := o.vote_weight + get_choice_weight c w }) p.options cs ∧
      e.proposal.deny_vote_weight = p.deny_vote_weight) ∧
    (vote = .Deny →
      ∃ d, p.deny_vote_weight = some d ∧
        e.proposal.deny_vote_weight = some (d + w) ∧
        e.proposal.options = p.options) ∧
    e.vote_record.voter_weight = w := by
  obtain ⟨realm, gov, voter, w', maxw, p1, u, t, -, -, -, -, -, -, -, -, hw', hval, hap, -,
    hep, hvr, -⟩ := cast_vote_ok_shape tp ctx vote e p hp h
  rw [hw] at hw'
  obtain rfl : w = w' := Except.ok.inj hw'
  have htt := try_tip_vote_tallies tp p1 maxw
  refine ⟨?_, ?_, ?_⟩
  · intro cs hcs
    subst hcs
    have hlen := assert_valid_vote_approve_length p cs hval
    simp only [apply_vote] at hap
    cases hac : applyChoices p.options cs w with
    | error er => simp [hac] at hap
    | ok opts =>
        simp only [hac, Except.ok.injEq] at hap
        have hz := applyChoices_eq_zipWith w p.options cs opts hlen hac
        refine ⟨hlen, ?_, ?_⟩
        · rw [hep, htt.1, ← hap]
          exact hz
        · rw [hep, htt.2, ← hap]
  · intro hd
    subst hd
    simp only [apply_vote] at hap
    cases hdw : p.deny_vote_weight with
    | none => simp [hdw] at hap
    | some d =>
        simp only [hdw] at hap
        cases hca : checkedAdd U64LIMIT d w with
        | none => simp [hca] at hap
        | some v =>
            simp only [hca, Except.ok.injEq] at hap
            obtain ⟨hv, -⟩ := checkedAdd_some _ _ _ _ hca
            refine ⟨d, rfl, ?_, ?_⟩
            · rw [hep, htt.2, ← hap]
              simp [hv]
            · rw [hep, htt.1, ← hap]
  · rw [hvr]
    rfl

/-- The effects of the concrete two-option Approve cast of the C7
witness: option 0 gains the full weight 100, option 1 is unchanged
(fixture). -/
def eApprove : CastVoteEffects :=
  { voter_token_owner_record :=
      { governing_token_owner := 7, unrelinquished_votes_count := 1,
        total_votes_count := 1, outstanding_proposal_count := 2 }
    proposal :=
      { token_owner_record := 3,
        options := [{ vote_weight := 100 }, { vote_weight := 0 }],
        deny_vote_weight := some 0, state := .Voting, voting_at := 0 }
    proposal_owner_record_write := none
    realm_write := none
    governance_write := none
    vote_record :=
      { proposal := 2, governing_token_owner := 7, voter_weight := 100,
        vote := .Approve [{ selected := true }, { selected := false }],
        is_relinquished := false } }

/-- C7 witness: the concrete `Approve(choice 0)` cast with resolved
weight 100 on the two-option proposal adds 100 to option 0 only, leaves
the deny accumulator alone and snapshots weight 100. -/
theorem cast_vote_applies_full_weight_witness :
    (∀ cs, Vote.Approve [{ selected := true }, { selected := false }] = .Approve cs →
      cs.length = p0.options.length ∧
      eApprove.proposal.options = List.zipWith
        (fun o c => { vote_weight := o.vote_weight + get_choice_weight c 100 })
        p0.options cs ∧
      eApprove.proposal.deny_vote_weight = p0.deny_vote_weight) ∧
    (Vote.Approve [{ selected := true }, { selected := false }] = Vote.Deny →
      ∃ d, p0.deny_vote_weight = some d ∧
        eApprove.proposal.deny_vote_weight = some (d + 100) ∧
        eApprove.proposal.options = p0.options) ∧
    eApprove.vote_record.voter_weight = 100 :=
  cast_vote_applies_full_weight tpNever ctxOk
    (Vote.Approve [{ selected := true }, { selected := false }]) eApprove p0 100
    rfl rfl rfl

/-- The `applyChoices` fold can only abort with the arithmetic-overflow panic,
never with the missing-deny-accumulator one. -/
theorem applyChoices_no_deny_abort (w : Nat) :
    ∀ (os : List ProposalOption) (cs : List VoteChoice),
      applyChoices os cs w ≠ .error (.abort .denyWeightMissing) := by
  intro os
  induction os with
  | nil => intro cs; cases cs <;> simp [applyChoices]
  | cons o os ih =>
      intro cs
      cases cs with
      | nil => simp [applyChoices]
      | cons c cs' =>
          unfold applyChoices
          cases hca : checkedAdd U64LIMIT o.vote_weight (get_choice_weight c w) with
          | none => simp
          | some v =>
              cases hrec : applyChoices os cs' w with
              | error er =>
                  simp only []
                  intro hcontra
                  rw [Except.error.injEq] at hcontra
                  exact ih cs' (by rw [hrec, hcontra])
              | ok rest => simp

/-- C10: casting `Deny` carries the unstated precondition that the
proposal's `deny_vote_weight` accumulator is present.  When it is `none`
and every earlier stage passes, the operation does not return a graceful
governance error but aborts via the `deny_vote_weight.unwrap()` panic
(source lines 123–131); when the accumulator is present, that abort is
unreachable in the tally-update block. -/
theorem cast_vote_deny_requires_accumulator :
    (∀ (tp : TipPred) (ctx : CastVoteCtx) (realm : Realm) (gov : Governance)
        (p : Proposal) (voter : TokenOwnerRecord) (w : Nat),
      ctx.vote_record_empty = true →
      ctx.realm_load = .ok realm →
      ctx.governance_load = .ok gov →
      ctx.proposal_load = .ok p →
      assert_can_cast_vote p gov.config ctx.now = .ok () →
      ctx.voter_token_owner_record_load = .ok voter →
      ctx.authority_is_owner_or_delegate = true →
      voter.unrelinquished_votes_count + 1 < U32LIMIT →
      voter.total_votes_count + 1 < U32LIMIT →
      ctx.resolve_voter_weight = .ok w →
      p.deny_vote_weight = none →
      process_cast_vote tp ctx Vote.Deny = .error (.abort .denyWeightMissing)) ∧
    (∀ (p : Proposal) (vote : Vote) (w d : Nat),
      p.deny_vote_weight = some d →
      apply_vote p vote w ≠ .error (.abort .denyWeightMissing)) := by
  constructor
  · intro tp ctx realm gov p voter w hempty hre hgo hp hcc hv hauth hu ht hw hdeny
    unfold process_cast_vote
    simp [hempty, hre, hgo, hp, hcc, hv, hauth, checkedAdd, hu, ht, hw,
      assert_valid_vote, apply_vote, hdeny]
  · intro p vote w d hdeny
    cases vote with
    | Approve cs =>
        simp only [apply_vote]
        cases hac : applyChoices p.options cs w with
        | error er =>
            simp only [hac]
            intro hcontra
            rw [Except.error.injEq] at hcontra
            exact applyChoices_no_deny_abort w p.options cs (by rw [hac, hcontra])
        | ok opts => simp [hac]
    | Deny =>
        simp only [apply_vote, hdeny]
        cases hca : checkedAdd U64LIMIT d w with
        | none => simp [hca]
        | some v => simp [hca]
    | Abstain => simp [apply_vote]
    | Veto => simp [apply_vote]

/-- C10 witness: the concrete `Deny` cast on a proposal with no deny
accumulator aborts with the missing-accumulator panic, and `apply_vote`
on the accumulator-carrying fixture never reaches that branch. -/
theorem cast_vote_deny_requires_accumulator_witness :
    process_cast_vote tpNever
      { ctxOk with proposal_load := .ok { p0 with deny_vote_weight := none } } Vote.Deny =
      .error (.abort .denyWeightMissing) ∧
    apply_vote p0 Vote.Deny 100 ≠ .error (.abort .denyWeightMissing) :=
  ⟨cast_vote_deny_requires_accumulator.1 tpNever
      { ctxOk with proposal_load := .ok { p0 with deny_vote_weight := none } }
      { voting_proposal_count := 1 }
      { config := { max_voting_time := 10 }, voting_proposal_count := 1 }
      { p0 with deny_vote_weight := none } tor0 100
      rfl rfl rfl rfl (by decide) rfl rfl (by decide) (by decide) rfl rfl,
   cast_vote_deny_requires_accumulator.2 p0 Vote.Deny 100 0 rfl⟩

/-- C8: on an editable proposal (with the container existing and every
collaborator succeeding) insert-instruction returns the queue grown by
exactly one entry appended at the end — the existing entries unchanged
and in order — whose account list is the position-by-position pairing of
the caller-supplied account-reference keys with the caller-supplied
metadata template, truncated to the shorter of the two sequences; on a
non-editable proposal it fails `InvalidState`, and the error result
writes nothing. -/
theorem insert_instruction_appends (ctx : InsertCtx) (instruction : InstructionDataBrief)
    (p : Proposal)
    (hne : ctx.transaction_account_empty = false)
    (hp : ctx.proposal_load = .ok p) :
    ((p.state = ProposalState.Draft ∨ p.state = ProposalState.SigningOff) →
      ∀ tor pt, ctx.token_owner_record_load = .ok tor →
        ctx.authority_is_owner_or_delegate = true →
        ctx.transaction_load = .ok pt →
        process_insert_instruction ctx instruction =
          .ok { pt with instructions :=
            pt.instructions ++ [mkInstructionData ctx instruction] } ∧
        (pt.instructions ++ [mkInstructionData ctx instruction]).length =
          pt.instructions.length + 1 ∧
        (pt.instructions ++ [mkInstructionData ctx instruction]).take
          pt.instructions.length = pt.instructions ∧
        (mkInstructionData ctx instruction).accounts = List.zipWith
          (fun key meta => { pubkey := key, is_signer := meta.is_signer, is_writable := meta.is_writable })
          ctx.instruction_keys instruction.accounts ∧
        (mkInstructionData ctx instruction).accounts.length =
          min ctx.instruction_keys.length instruction.accounts.length) ∧
    (¬ (p.state = ProposalState.Draft ∨ p.state = ProposalState.SigningOff) →
      process_insert_instruction ctx instruction = .error (.gov .InvalidState)) := by
  constructor
  · intro hed tor pt htor hauth hpt
    have hedit : assert_can_edit_instructions p = .ok () := by
      unfold assert_can_edit_instructions
      rw [if_pos hed]
    refine ⟨?_, by simp, by simp, rfl, by simp [mkInstructionData]⟩
    unfold process_insert_instruction
    simp [hne, hp, hedit, htor, hauth, hpt]
  · intro hed
    have hedit : assert_can_edit_instructions p = .error (.gov .InvalidState) := by
      unfold assert_can_edit_instructions
      rw [if_neg hed]
    unfold process_insert_instruction
    simp [hne, hp, hedit]

/-- A one-entry instruction queue (fixture). -/
def pt0 : ProposalTransactionV2 :=
  { instructions := [{ program_id := 9, accounts := [], data := [1] }] }

/-- An insert-instruction context on a Draft proposal with one supplied
account reference (fixture). -/
def ictxOk : InsertCtx :=
  { transaction_account_empty := false
    proposal_load := .ok { p0 with state := .Draft }
    token_owner_record_load := .ok tor0
    authority_is_owner_or_delegate := true
    transaction_load := .ok pt0
    instruction_program_id := 5
    instruction_keys := [21] }

/-- A two-account metadata template with a one-byte payload (fixture:
deliberately longer than the supplied account references to exercise the
truncating pairing). -/
def instr0 : InstructionDataBrief :=
  { accounts := [{ is_signer := true, is_writable := false },
                 { is_signer := false, is_writable := true }]
    data := [7] }

/-- C8 witness: the concrete insert on the editable Draft proposal
appends exactly one entry whose paired account list is truncated to the
single supplied reference, and the same insert on a Voting-state
proposal fails `InvalidState`. -/
theorem insert_instruction_appends_witness :
    process_insert_instruction ictxOk instr0 =
      .ok { pt0 with instructions :=
        pt0.instructions ++ [mkInstructionData ictxOk instr0] } ∧
    (mkInstructionData ictxOk instr0).accounts.length =
      min ictxOk.instruction_keys.length instr0.accounts.length ∧
    process_insert_instruction { ictxOk with proposal_load := .ok p0 } instr0 =
      .error (.gov .InvalidState) :=
  ⟨((insert_instruction_appends ictxOk instr0 { p0 with state := .Draft } rfl rfl).1
      (Or.inl rfl) tor0 pt0 rfl rfl rfl).1,
   ((insert_instruction_appends ictxOk instr0 { p0 with state := .Draft } rfl rfl).1
      (Or.inl rfl) tor0 pt0 rfl rfl rfl).2.2.2.2,
   (insert_instruction_appends { ictxOk with proposal_load := .ok p0 } instr0 p0
      rfl rfl).2 (by decide)⟩
